import Mathlib

/-!
A verification development for the Rapid Moment Navigator core
(`rapid_moment_navigator.py`): timecode/frame conversion, minimum-duration
clip padding, transcript search, filename-based subtitle-to-video matching,
and the background subtitle-cache coordination logic.

Conventions of the embedding:
- Python numbers (floats used for seconds and fps) are modelled as `ℚ`;
  Python `int(x)` truncation toward zero is `pyInt`; Python `x // y`
  (floor division) and `x % y` are `Int.floor` and `qmod`.
- Python strings are modelled as `List Char`; timecode strings are
  modelled by their parsed field values (`Timecode` below).
- Stateful, thread-driven code is modelled by explicit state types and
  step functions; the mutex-guarded critical sections of the source are
  modelled as single atomic steps.
-/

/-- Python `int(x)` conversion: truncation toward zero. Stated with the
computable `Rat.floor` so that concrete instances evaluate by `decide`. -/
def pyInt (q : ℚ) : ℤ := if 0 ≤ q then q.floor else -(-q).floor

/-- Python `max(0, x)`. -/
def pyMax0 (q : ℚ) : ℚ := if 0 ≤ q then q else 0

/-- Python `max(0, n)` on integers. -/
def pyMax0Int (z : ℤ) : ℤ := if 0 ≤ z then z else 0

/-- Python `x % y` on rationals (used with positive `y`):
`x - y * (x // y)` where `//` is floor division. -/
def qmod (x y : ℚ) : ℚ := x - y * (x / y).floor

theorem ratFloor_eq_floor (q : ℚ) : q.floor = ⌊q⌋ := by
  rw [Rat.floor_def, Rat.floor_def']

theorem pyInt_eq_floor {q : ℚ} (h : 0 ≤ q) : pyInt q = ⌊q⌋ := by
  simp [pyInt, h, ratFloor_eq_floor]

theorem pyMax0_eq_max (q : ℚ) : pyMax0 q = max 0 q := by
  unfold pyMax0
  rcases le_or_lt 0 q with h | h
  · simp [h, max_eq_right h]
  · simp [not_le.mpr h, max_eq_left h.le]

theorem qmod_eq (x y : ℚ) : qmod x y = x - y * ⌊x / y⌋ := by
  rw [qmod, ratFloor_eq_floor]

/-- A parsed timecode value, as accepted by `timecode_to_frames` in the
source: either the DaVinci-Resolve style 4-field `HH:MM:SS:FF` form
(`framesTC`), or the `HH:MM:SS[,MMM]` / `MM:SS[,MMM]` form (`msTC`, with
hours 0 for the 2-field variant and `ms = 0` when the millisecond field is
absent or empty). -/
inductive Timecode where
  | framesTC (h m s f : ℕ)
  | msTC (h m s ms : ℕ)
deriving DecidableEq, Repr

/-- The frame-offset compensation table `_get_timecode_offset` from the
source: every framerate branch returns 0 (an explicit no-op table). -/
def timecode_offset (fps : ℚ) : ℤ :=
  if 59 ≤ fps ∧ fps ≤ 60 then 0
  else if 29 ≤ fps ∧ fps ≤ 30 then 0
  else if 23 ≤ fps ∧ fps ≤ 24 then 0
  else if 25 ≤ fps ∧ fps ≤ 25 + 1/10 then 0
  else 0

/-- The source's `timecode_to_frames(timecode, fps)`:
- 4-field `HH:MM:SS:FF`: `int((h*3600+m*60+s)*fps + f)` (returned directly,
  no offset compensation and no clamping);
- otherwise: a millisecond field of 0 contributes nothing; a positive
  millisecond field under 100 is added verbatim as frames; 100 or more is
  converted via `ms/1000 * fps`; the total is truncated with `int`, the
  (always zero) offset added, and the result clamped non-negative. -/
def timecode_to_frames (tc : Timecode) (fps : ℚ) : ℤ :=
  match tc with
  | .framesTC h m s f =>
      pyInt (((h * 3600 + m * 60 + s : ℕ) : ℚ) * fps + (f : ℚ))
  | .msTC h m s ms =>
      let framePortion : ℚ :=
        if 0 < ms then
          (if ms < 100 then (ms : ℚ) else (ms : ℚ) / 1000 * fps)
        else 0
      let totalSeconds : ℚ := ((h * 3600 + m * 60 + s : ℕ) : ℚ)
      pyMax0Int (pyInt (totalSeconds * fps + framePortion) + timecode_offset fps)

/-- The point in time denoted by an `HH:MM:SS,MMM` timecode under the
standard interpretation of the millisecond field (the interpretation used
by the timed-text dialect the files are written in). -/
def msTimecodePoint (h m s ms : ℕ) : ℚ :=
  ((h * 3600 + m * 60 + s : ℕ) : ℚ) + (ms : ℚ) / 1000

/-- The source's `_timecode_to_seconds(timecode)`: `HH:MM:SS[,MMM]` (or
`MM:SS[,MMM]`, hours 0) becomes seconds; a 4-field `HH:MM:SS:FF` string has
four `:`-separated parts, falls into the `else` branch, and yields 0. -/
def timecode_to_seconds (tc : Timecode) : ℚ :=
  match tc with
  | .framesTC _ _ _ _ => 0
  | .msTC h m s ms =>
      ((h * 3600 + m * 60 + s : ℕ) : ℚ) + (if 0 < ms then (ms : ℚ) / 1000 else 0)

/-- The hour/minute/second components computed by the source's
`_seconds_to_timecode(total_seconds)`: the input is clamped non-negative,
then `hours = int(t // 3600)`, `minutes = int((t % 3600) // 60)`,
`seconds = int(t % 60)`. -/
def seconds_to_timecode_parts (totalSeconds : ℚ) : ℕ × ℕ × ℕ :=
  let t := pyMax0 totalSeconds
  ((t / 3600).floor.toNat, ((qmod t 3600) / 60).floor.toNat, (qmod t 60).floor.toNat)

/-- Python `f"{n:02d}"`: decimal digits, left-padded with a zero to width 2. -/
def pad2 (n : ℕ) : List Char :=
  if n < 10 then '0' :: (Nat.toDigits 10 n) else Nat.toDigits 10 n

/-- The source's `_seconds_to_timecode`: the `HH:MM:SS` string it returns,
as a character list. -/
def seconds_to_timecode (totalSeconds : ℚ) : List Char :=
  let p := seconds_to_timecode_parts totalSeconds
  pad2 p.1 ++ ':' :: pad2 p.2.1 ++ ':' :: pad2 p.2.2

/-- An output `HH:MM:SS` string of `_seconds_to_timecode` re-parses as an
`msTC` timecode with a zero millisecond field. -/
def partsToTimecode (p : ℕ × ℕ × ℕ) : Timecode := .msTC p.1 p.2.1 p.2.2 0

/-- The source's `_apply_minimum_duration(start_time, end_time, fps)`.
The two preference reads are the `minDurationEnabled` / `minDurationSeconds`
parameters (the `fps` parameter of the source is unused by its body). The
unchanged branches return the input timecodes verbatim; the padding branch
returns the `HH:MM:SS` strings produced by `_seconds_to_timecode`,
represented here by `partsToTimecode`. The guard of the extra-shortfall
branch is the source's `new_start_seconds > 0 and
start_seconds - time_to_add_each_side < 0`. -/
def apply_minimum_duration (minDurationEnabled : Bool) (minDurationSeconds : ℚ)
    (startTc endTc : Timecode) : Timecode × Timecode :=
  if !minDurationEnabled then (startTc, endTc)
  else
    let startSeconds := timecode_to_seconds startTc
    let endSeconds := timecode_to_seconds endTc
    let currentDuration := endSeconds - startSeconds
    if minDurationSeconds ≤ currentDuration then (startTc, endTc)
    else
      let timeToAddEachSide := (minDurationSeconds - currentDuration) / 2
      let newStartSeconds := pyMax0 (startSeconds - timeToAddEachSide)
      let newEndSeconds :=
        if 0 < newStartSeconds ∧ startSeconds - timeToAddEachSide < 0 then
          endSeconds + timeToAddEachSide + |startSeconds - timeToAddEachSide|
        else endSeconds + timeToAddEachSide
      (partsToTimecode (seconds_to_timecode_parts newStartSeconds),
       partsToTimecode (seconds_to_timecode_parts newEndSeconds))

example : timecode_to_frames (.msTC 0 0 10 500) 24 = 252 := by
  norm_num [timecode_to_frames, timecode_offset, pyInt, pyMax0Int, ratFloor_eq_floor]

example : timecode_to_frames (.msTC 0 0 10 99) 24 = 339 := by
  norm_num [timecode_to_frames, timecode_offset, pyInt, pyMax0Int, ratFloor_eq_floor]

example : timecode_to_frames (.msTC 0 0 10 100) 24 = 242 := by
  norm_num [timecode_to_frames, timecode_offset, pyInt, pyMax0Int, ratFloor_eq_floor]

example : seconds_to_timecode_parts (-5) = (0, 0, 0) := by
  norm_num [seconds_to_timecode_parts, pyMax0, qmod, ratFloor_eq_floor]

example : seconds_to_timecode_parts 3725 = (1, 2, 5) := by
  norm_num [seconds_to_timecode_parts, pyMax0, qmod, ratFloor_eq_floor]
  decide

example :
    apply_minimum_duration true 10 (.msTC 0 0 2 0) (.msTC 0 0 4 0) =
      (.msTC 0 0 0 0, .msTC 0 0 8 0) := by
  norm_num [apply_minimum_duration, timecode_to_seconds, partsToTimecode,
    seconds_to_timecode_parts, pyMax0, qmod, ratFloor_eq_floor]
  decide

theorem pyMax0Int_eq_max (z : ℤ) : pyMax0Int z = max 0 z := by
  unfold pyMax0Int
  rcases le_or_lt 0 z with h | h
  · simp [h, max_eq_right h]
  · simp [not_le.mpr h, max_eq_left h.le]

theorem timecode_offset_eq_zero (fps : ℚ) : timecode_offset fps = 0 := by
  unfold timecode_offset
  repeat' split
  all_goals rfl

/-- The guard of the push-shortfall-onto-end branch of
`_apply_minimum_duration` is unsatisfiable: `new_start_seconds` is
`max(0, start_seconds - time_to_add_each_side)`, so it cannot be positive
while `start_seconds - time_to_add_each_side` is negative. The branch is
dead code and the extra shortfall is never added to the end. -/
theorem apply_minimum_duration_guard_unsat (s a : ℚ) :
    ¬(0 < pyMax0 (s - a) ∧ s - a < 0) := by
  rintro ⟨h1, h2⟩
  rw [pyMax0, if_neg (not_le.mpr h2)] at h1
  exact lt_irrefl 0 h1

/-- C1: on the failing input `start = 00:00:02`, `end = 00:00:04` with
minimum duration enabled at 10 seconds, `_apply_minimum_duration` returns
`(00:00:00, 00:00:08)`: the start is clamped to 0 but the unmet shortfall
of 2 seconds is never pushed onto the end (the guard of that branch is
unsatisfiable), so the returned range lasts 8 seconds, violating the
claimed minimum of 10. -/
theorem c1_apply_minimum_duration_failing_input :
    apply_minimum_duration true 10 (.msTC 0 0 2 0) (.msTC 0 0 4 0) =
      (.msTC 0 0 0 0, .msTC 0 0 8 0) ∧
    timecode_to_seconds (apply_minimum_duration true 10
        (.msTC 0 0 2 0) (.msTC 0 0 4 0)).2 -
      timecode_to_seconds (apply_minimum_duration true 10
        (.msTC 0 0 2 0) (.msTC 0 0 4 0)).1 = 8 ∧
    (8 : ℚ) < 10 := by
  refine ⟨?_, ?_, by norm_num⟩ <;>
    · norm_num [apply_minimum_duration, timecode_to_seconds, partsToTimecode,
        seconds_to_timecode_parts, pyMax0, qmod, ratFloor_eq_floor]
      decide

theorem seconds_to_timecode_parts_clamp (t : ℚ) :
    seconds_to_timecode_parts t = seconds_to_timecode_parts (max 0 t) := by
  unfold seconds_to_timecode_parts
  rw [show pyMax0 (max 0 t) = pyMax0 t by
    rw [pyMax0_eq_max, pyMax0_eq_max, ← max_assoc, max_self]]

/-- C10: the seconds-to-timecode conversion clamps negative input to 0 and
produces components which are floors summing to `⌊t⌋` total seconds (so all
sub-second precision is discarded), with valid minute and second fields. -/
theorem c10_seconds_to_timecode_floors (t : ℚ) :
    seconds_to_timecode t = seconds_to_timecode (max 0 t) ∧
    (0 ≤ t →
      (((seconds_to_timecode_parts t).1 * 3600 + (seconds_to_timecode_parts t).2.1 * 60 +
        (seconds_to_timecode_parts t).2.2 : ℕ) : ℤ) = ⌊t⌋ ∧
      (seconds_to_timecode_parts t).2.1 < 60 ∧ (seconds_to_timecode_parts t).2.2 < 60) := by
  constructor
  · unfold seconds_to_timecode
    rw [seconds_to_timecode_parts_clamp]
  · intro ht
    unfold seconds_to_timecode_parts
    rw [show pyMax0 t = t by rw [pyMax0_eq_max, max_eq_right ht]]
    simp only [ratFloor_eq_floor, qmod_eq]
    set H : ℤ := ⌊t / 3600⌋ with hH
    set r : ℚ := t - 3600 * H with hr
    have hH0 : 0 ≤ H := Int.le_floor.mpr (by positivity)
    have hr0 : 0 ≤ r := by
      have := Int.floor_le (t / 3600)
      rw [← hH] at this
      rw [hr]
      nlinarith
    have hrlt : r < 3600 := by
      have := Int.lt_floor_add_one (t / 3600)
      rw [← hH] at this
      rw [hr]
      nlinarith
    set M : ℤ := ⌊r / 60⌋ with hM
    have hM0 : 0 ≤ M := Int.le_floor.mpr (by positivity)
    have hMlt : M < 60 := by
      rw [hM]
      rw [Int.floor_lt]
      push_cast
      linarith
    have hfl60 : ⌊t / 60⌋ = M + 60 * H := by
      have : r / 60 = t / 60 - ((60 * H : ℤ) : ℚ) := by
        rw [hr]
        push_cast
        ring
      rw [hM, this, Int.floor_sub_int]
      ring
    have hq60 : t - 60 * (⌊t / 60⌋ : ℚ) = r - 60 * M := by
      rw [hfl60, hr]
      push_cast
      ring
    have hS : ⌊t - 60 * (⌊t / 60⌋ : ℚ)⌋ = ⌊r⌋ - 60 * M := by
      rw [hq60, show r - 60 * (M : ℚ) = r - ((60 * M : ℤ) : ℚ) by push_cast; ring,
        Int.floor_sub_int]
    have hS0 : 0 ≤ ⌊r⌋ - 60 * M := by
      have h60M : (60 : ℚ) * M ≤ r := by
        have := Int.floor_le (r / 60)
        rw [← hM] at this
        nlinarith
      have : (60 * M : ℤ) ≤ ⌊r⌋ := Int.le_floor.mpr (by push_cast; linarith)
      omega
    have hSlt : ⌊r⌋ - 60 * M < 60 := by
      have hfr : (⌊r⌋ : ℚ) ≤ r := Int.floor_le r
      have := Int.lt_floor_add_one (r / 60)
      rw [← hM] at this
      have h2 : r < 60 * M + 60 := by nlinarith
      have h3 : (⌊r⌋ : ℚ) < 60 * M + 60 := lt_of_le_of_lt hfr h2
      have h4 : (⌊r⌋ : ℚ) - 60 * M < 60 := by linarith
      exact_mod_cast h4
    have hflr : ⌊r⌋ = ⌊t⌋ - 3600 * H := by
      rw [hr, show t - 3600 * (H : ℚ) = t - ((3600 * H : ℤ) : ℚ) by push_cast; ring,
        Int.floor_sub_int]
    refine ⟨?_, ?_, ?_⟩
    · push_cast [Int.toNat_of_nonneg hH0, Int.toNat_of_nonneg hM0,
        Int.toNat_of_nonneg (hS ▸ hS0 : 0 ≤ ⌊t - 60 * (⌊t / 60⌋ : ℚ)⌋)]
      rw [hS, hflr]
      ring
    · have : M.toNat < 60 := by omega
      simpa using this
    · have h4 : ⌊t - 60 * (⌊t / 60⌋ : ℚ)⌋ < 60 := by rw [hS]; omega
      have h5 : 0 ≤ ⌊t - 60 * (⌊t / 60⌋ : ℚ)⌋ := hS ▸ hS0
      omega

theorem timecode_to_frames_msTC_clean (h m s ms : ℕ) (fps : ℚ) (hfps : 0 ≤ fps)
    (hms : ms = 0 ∨ 100 ≤ ms) :
    timecode_to_frames (.msTC h m s ms) fps = max 0 ⌊msTimecodePoint h m s ms * fps⌋ := by
  have hT : (0 : ℚ) ≤ ((h * 3600 + m * 60 + s : ℕ) : ℚ) := Nat.cast_nonneg _
  rcases hms with hms | hms
  · subst hms
    simp only [timecode_to_frames, msTimecodePoint, timecode_offset_eq_zero, add_zero]
    rw [if_neg (lt_irrefl 0), pyInt_eq_floor (by simpa using mul_nonneg hT hfps),
      pyMax0Int_eq_max]
    norm_num
  · have h1 : 0 < ms := by omega
    have h2 : ¬ ms < 100 := by omega
    have hp : (0 : ℚ) ≤ (ms : ℚ) / 1000 := by positivity
    simp only [timecode_to_frames, msTimecodePoint, timecode_offset_eq_zero, add_zero]
    rw [if_pos h1, if_neg h2,
      pyInt_eq_floor (add_nonneg (mul_nonneg hT hfps) (mul_nonneg hp hfps)),
      pyMax0Int_eq_max,
      show ((h * 3600 + m * 60 + s : ℕ) : ℚ) * fps + (ms : ℚ) / 1000 * fps =
        (((h * 3600 + m * 60 + s : ℕ) : ℚ) + (ms : ℚ) / 1000) * fps by ring]

/-- C2 counterexample: at fps 24, the timecode `00:00:10,099` denotes an
earlier point in time than `00:00:10,100` (10.099 s versus 10.1 s), yet
`timecode_to_frames` maps it to a later frame (339 versus 242), because a
millisecond field under 100 is added verbatim as frames. `toFrames` is
therefore not monotonic in its timecode argument. -/
theorem c2_toFrames_not_monotonic_counterexample :
    msTimecodePoint 0 0 10 99 ≤ msTimecodePoint 0 0 10 100 ∧
    timecode_to_frames (.msTC 0 0 10 100) 24 < timecode_to_frames (.msTC 0 0 10 99) 24 := by
  constructor
  · norm_num [msTimecodePoint]
  · norm_num [timecode_to_frames, timecode_offset, pyInt, pyMax0Int, ratFloor_eq_floor]

/-- C2 amended: for a fixed non-negative fps, `timecode_to_frames` is
monotonic non-decreasing in the point in time denoted by its
`HH:MM:SS[,MMM]` timecode argument, provided both millisecond fields are
genuine milliseconds (zero or at least 100) rather than values under 100,
which the source treats as legacy frame offsets. -/
theorem c2_toFrames_monotonic_on_ms_timecodes
    (h1 m1 s1 ms1 h2 m2 s2 ms2 : ℕ) (fps : ℚ) (hfps : 0 ≤ fps)
    (hms1 : ms1 = 0 ∨ 100 ≤ ms1) (hms2 : ms2 = 0 ∨ 100 ≤ ms2)
    (hle : msTimecodePoint h1 m1 s1 ms1 ≤ msTimecodePoint h2 m2 s2 ms2) :
    timecode_to_frames (.msTC h1 m1 s1 ms1) fps ≤
      timecode_to_frames (.msTC h2 m2 s2 ms2) fps := by
  rw [timecode_to_frames_msTC_clean h1 m1 s1 ms1 fps hfps hms1,
    timecode_to_frames_msTC_clean h2 m2 s2 ms2 fps hfps hms2]
  exact max_le_max le_rfl (Int.floor_le_floor (mul_le_mul_of_nonneg_right hle hfps))

/-- C2 amended, witness: `00:00:10,000` before `00:00:11,500` at fps 24. -/
theorem c2_toFrames_monotonic_witness :
    timecode_to_frames (.msTC 0 0 10 0) 24 ≤ timecode_to_frames (.msTC 0 0 11 500) 24 :=
  c2_toFrames_monotonic_on_ms_timecodes 0 0 10 0 0 0 11 500 24 (by norm_num)
    (Or.inl rfl) (Or.inr (by norm_num)) (by norm_num [msTimecodePoint])

/-- Modelled from the spec (for the refinement claim C8): the millisecond
branch of `toFrames` as the spec words it — a millisecond field under 100
is added verbatim as a frame offset, one of 100 or more is converted via
`ms/1000 * fps`; the result is floored to an integer frame index and
clamped to be non-negative. -/
def spec_ms_frames (h m s ms : ℕ) (fps : ℚ) : ℤ :=
  max 0 ⌊((h * 3600 + m * 60 + s : ℕ) : ℚ) * fps +
    (if ms < 100 then (ms : ℚ) else (ms : ℚ) / 1000 * fps)⌋

/-- C8: for non-negative fps the source's millisecond branch agrees exactly
with the spec's description (`spec_ms_frames`), and in particular
`toFrames("00:00:10,500", fps=24) = 252`. -/
theorem c8_toFrames_ms_semantics (h m s ms : ℕ) (fps : ℚ) (hfps : 0 ≤ fps) :
    timecode_to_frames (.msTC h m s ms) fps = spec_ms_frames h m s ms fps ∧
    timecode_to_frames (.msTC 0 0 10 500) 24 = 252 := by
  constructor
  · have hT : (0 : ℚ) ≤ ((h * 3600 + m * 60 + s : ℕ) : ℚ) := Nat.cast_nonneg _
    have hportion : (if 0 < ms then (if ms < 100 then (ms : ℚ) else (ms : ℚ) / 1000 * fps) else 0) =
        (if ms < 100 then (ms : ℚ) else (ms : ℚ) / 1000 * fps) := by
      by_cases h0 : 0 < ms
      · rw [if_pos h0]
      · have hz : ms = 0 := by omega
        subst hz
        norm_num
    have hpn : (0 : ℚ) ≤ (if ms < 100 then (ms : ℚ) else (ms : ℚ) / 1000 * fps) := by
      by_cases hlt : ms < 100
      · rw [if_pos hlt]; exact Nat.cast_nonneg ms
      · rw [if_neg hlt]; exact mul_nonneg (by positivity) hfps
    simp only [timecode_to_frames, spec_ms_frames, timecode_offset_eq_zero, add_zero]
    rw [hportion, pyInt_eq_floor (add_nonneg (mul_nonneg hT hfps) hpn), pyMax0Int_eq_max]
  · norm_num [timecode_to_frames, timecode_offset, pyInt, pyMax0Int, ratFloor_eq_floor]

/-- C8 witness: the refinement instantiated at `00:00:10,500`, fps 24. -/
theorem c8_toFrames_ms_semantics_witness :
    timecode_to_frames (.msTC 0 0 10 500) 24 = spec_ms_frames 0 0 10 500 24 ∧
    timecode_to_frames (.msTC 0 0 10 500) 24 = 252 :=
  c8_toFrames_ms_semantics 0 0 10 500 24 (by norm_num)

/-- C10 witness: the conversion instantiated at 3.5 seconds. -/
theorem c10_seconds_to_timecode_floors_witness :
    seconds_to_timecode (7/2) = seconds_to_timecode (max 0 (7/2)) ∧
    ((((seconds_to_timecode_parts (7/2)).1 * 3600 +
        (seconds_to_timecode_parts (7/2)).2.1 * 60 +
        (seconds_to_timecode_parts (7/2)).2.2 : ℕ) : ℤ) = ⌊(7/2 : ℚ)⌋ ∧
      (seconds_to_timecode_parts (7/2)).2.1 < 60 ∧
      (seconds_to_timecode_parts (7/2)).2.2 < 60) :=
  ⟨(c10_seconds_to_timecode_floors (7/2)).1,
   (c10_seconds_to_timecode_floors (7/2)).2 (by norm_num)⟩

/-- Python whitespace for `\s` and `str.strip()` (ASCII range). -/
def pyIsSpace (c : Char) : Bool :=
  c == ' ' || c == '\t' || c == '\n' || c == '\r' || c == '\x0b' || c == '\x0c'

/-- Python `str.lower()` (the inputs handled here are ASCII). -/
def lowerStr (s : List Char) : List Char := s.map Char.toLower

/-- Python substring containment `needle in hay`. The empty needle is
contained in everything, as in Python. -/
def containsSub (needle hay : List Char) : Bool :=
  hay.tails.any (fun t => needle.isPrefixOf t)

/-- Python `str.strip()`: leading and trailing whitespace removed. -/
def stripChars (s : List Char) : List Char :=
  ((s.dropWhile pyIsSpace).reverse.dropWhile pyIsSpace).reverse

/-- The scanner underlying `re.sub(r'<[^>]+>', '', text)`. The second
argument buffers the characters consumed since an as-yet-unclosed `<`
(`none` when outside any candidate tag). On a `>`: a buffer holding `<` and
at least one more character is a complete `<[^>]+>` match and is dropped;
a bare `<>` has an empty body, matches nothing, and is kept literally. At
end of input an unclosed buffer is flushed verbatim. -/
def removeTagsGo : List Char → Option (List Char) → List Char
  | [], none => []
  | [], some buf => buf
  | c :: rest, none =>
      if c = '<' then removeTagsGo rest (some [ '<' ])
      else c :: removeTagsGo rest none
  | c :: rest, some buf =>
      if c = '>' then
        if 2 ≤ buf.length then removeTagsGo rest none
        else buf ++ '>' :: removeTagsGo rest none
      else removeTagsGo rest (some (buf ++ [c]))

/-- Python `re.sub(r'<[^>]+>', '', text)`: every `<...>` markup span
(leftmost, non-overlapping) removed. -/
def removeTags (s : List Char) : List Char := removeTagsGo s none

/-- The source's `clean_text = re.sub(r'<[^>]+>', '', text)` computed for
each parsed transcript entry in `_search_thread`. -/
def clean_text (raw : List Char) : List Char := removeTags raw

/-- Python `text.split('\n')` (empty pieces kept, result never empty). -/
def splitOnNl : List Char → List (List Char)
  | [] => [ [] ]
  | c :: rest =>
      match splitOnNl rest with
      | [] => [ [] ]
      | p :: ps => if c = '\n' then [] :: p :: ps else (c :: p) :: ps

/-- Python `'\n'.join(lines)`. -/
def joinNl : List (List Char) → List Char
  | [] => []
  | [l] => l
  | l :: ls => l ++ '\n' :: joinNl ls

/-- Modelled from the spec wording of the claimed 2-line cap: split on
newlines and keep only the first two lines when there are more. -/
def capTwoLines (s : List Char) : List Char :=
  let ls := splitOnNl s
  if 2 < ls.length then joinNl (ls.take 2) else s

/-- The scanner for `re.sub(r'  +', ' ', t)`: the flag records whether the
previous character was a space already emitted, so each maximal run of
spaces becomes a single space (a run of length one is unchanged by the
regex, so the result agrees). -/
def collapseDoubleSpacesGo : Bool → List Char → List Char
  | _, [] => []
  | prevSpace, c :: rest =>
      if c = ' ' then
        if prevSpace then collapseDoubleSpacesGo true rest
        else ' ' :: collapseDoubleSpacesGo true rest
      else c :: collapseDoubleSpacesGo false rest

/-- Python `re.sub(r'  +', ' ', t)`. -/
def collapseDoubleSpaces (s : List Char) : List Char := collapseDoubleSpacesGo false s

/-- The source's `_restore_subtitle_line_breaks(text)`: replace the Unicode
line/paragraph separators with newlines, collapse runs of two or more
spaces, cap at 2 lines, and strip. -/
def restore_subtitle_line_breaks (text : List Char) : List Char :=
  if text = [] then text
  else
    let t1 := text.map (fun c => if c = '\u2028' then '\n' else c)
    let t2 := t1.map (fun c => if c = '\u2029' then '\n' else c)
    let t3 := collapseDoubleSpaces t2
    let ls := splitOnNl t3
    let t4 := if 2 < ls.length then joinNl (ls.take 2) else t3
    stripChars t4

/-- A parsed transcript (timed-text) entry as produced by the block regex
in `_search_thread`: index line, start and end timecodes, and the raw text
(already `strip()`ped by the source). -/
structure TranscriptEntry where
  num : ℕ
  startTc : Timecode
  endTc : Timecode
  text : List Char
deriving DecidableEq, Repr

/-- A cached editor-timeline entry (the `ExternalEntry` of the spec), as
stored by `_get_resolve_subtitle_track`: text plus frame range. -/
structure CachedItem where
  text : List Char
  startFrame : ℤ
  endFrame : ℤ
deriving DecidableEq, Repr

/-- The source's `_search_subtitle_items(subtitle_items, text_to_find,
case_sensitive)`: plain substring filtering over the item texts. -/
def search_subtitle_items (subtitleItems : List CachedItem) (textToFind : List Char)
    (caseSensitive : Bool) : List CachedItem :=
  subtitleItems.filter (fun item =>
    if caseSensitive then containsSub textToFind item.text
    else containsSub (lowerStr textToFind) (lowerStr item.text))

/-- The per-entry match test of `_search_thread`:
`keyword.lower() in clean_text.lower()`. -/
def entry_matches (keyword : List Char) (e : TranscriptEntry) : Bool :=
  containsSub (lowerStr keyword) (lowerStr (clean_text e.text))

/-- The matching entries of one parsed transcript document, in order. -/
def search_srt_entries (keyword : List Char) (entries : List TranscriptEntry) :
    List TranscriptEntry :=
  entries.filter (entry_matches keyword)

/-- The source's `search_subtitles` / `_search_thread` pipeline over already
parsed documents (pairs of file path and entry list, supplied in the sorted
file order the source iterates in): the keyword is stripped and an empty
keyword returns no results before any search begins; otherwise results
follow document order then entry order. -/
def search_subtitles (keyword : List Char)
    (docs : List (List Char × List TranscriptEntry)) :
    List (List Char × TranscriptEntry) :=
  let kw := stripChars keyword
  if kw = [] then []
  else docs.foldr (fun d acc => (search_srt_entries kw d.2).map (fun e => (d.1, e)) ++ acc) []

example : removeTags (r"<i>hello</i> world".data) = (r"hello world".data) := by decide
example : removeTags (r"a<b<c>d".data) = (r"ad".data) := by decide
example : removeTags (r"<>a>b<".data) = (r"<>a>b<".data) := by decide
example : containsSub (r"ell".data) (r"hello".data) = true := by decide
example : containsSub [] (r"hello".data) = true := by decide
example : search_subtitle_items [ ⟨ r"hello".data, 0, 0 ⟩ ] [] false =
    [ ⟨ r"hello".data, 0, 0 ⟩ ] := by decide
example : restore_subtitle_line_breaks (r"a b  c".data ++ [ ' ' ] ++ r"d".data) =
    ((r"a b c".data) ++ '\n' :: r"d".data) := by decide

theorem containsSub_nil (l : List Char) : containsSub [] l = true := by
  cases l <;> rfl

theorem search_subtitle_items_all (subtitleItems : List CachedItem) (caseSensitive : Bool) :
    search_subtitle_items subtitleItems [] caseSensitive = subtitleItems := by
  unfold search_subtitle_items
  refine List.filter_eq_self.mpr (fun item _ => ?_)
  cases caseSensitive <;> simp [lowerStr, containsSub_nil]

/-- C6 counterexample: for the cached-entry search, an empty keyword over a
non-empty collection returns every item rather than an empty result
sequence, because the empty string is a substring of every string. -/
theorem c6_empty_keyword_counterexample :
    search_subtitle_items [ ⟨ r"hello".data, 0, 0 ⟩ ] [] false =
      [ ⟨ r"hello".data, 0, 0 ⟩ ] ∧
    search_subtitle_items [ ⟨ r"hello".data, 0, 0 ⟩ ] [] false ≠ [] := by
  constructor <;> decide

/-- C6 amended: the transcript search returns an empty result sequence for
an empty (whitespace-stripped) keyword or an empty document collection, and
the cached-entry search returns an empty sequence for an empty collection;
but an empty keyword passed to the cached-entry search matches every item
and returns the whole collection. No case raises an error (all operations
are total). -/
theorem c6_empty_search_semantics :
    (∀ (keyword : List Char) docs, stripChars keyword = [] →
      search_subtitles keyword docs = []) ∧
    (∀ keyword : List Char, search_subtitles keyword [] = []) ∧
    (∀ (textToFind : List Char) caseSensitive,
      search_subtitle_items [] textToFind caseSensitive = []) ∧
    (∀ subtitleItems caseSensitive,
      search_subtitle_items subtitleItems [] caseSensitive = subtitleItems) := by
  refine ⟨?_, ?_, ?_, search_subtitle_items_all⟩
  · intro keyword docs h
    simp [search_subtitles, h]
  · intro keyword
    simp only [search_subtitles, List.foldr_nil]
    split <;> rfl
  · intro textToFind caseSensitive
    rfl

/-- C6 witness: the amended statement instantiated at a blank keyword over
one document, and at an empty keyword over one cached item. -/
theorem c6_empty_search_semantics_witness :
    search_subtitles [ ' ' ]
      [ (r"a.srt".data, [ ⟨ 1, .msTC 0 0 1 0, .msTC 0 0 2 0, r"hello world".data ⟩ ]) ] = [] ∧
    search_subtitle_items [ ⟨ r"hello".data, 0, 0 ⟩ ] [] false =
      [ ⟨ r"hello".data, 0, 0 ⟩ ] :=
  ⟨ c6_empty_search_semantics.1 [ ' ' ]
      [ (r"a.srt".data, [ ⟨ 1, .msTC 0 0 1 0, .msTC 0 0 2 0, r"hello world".data ⟩ ]) ]
      (by decide),
    c6_empty_search_semantics.2.2.2 [ ⟨ r"hello".data, 0, 0 ⟩ ] false ⟩

/-- Number of newline characters in a string. A string with `n` newlines
renders as `n + 1` lines. -/
def countNl (s : List Char) : ℕ := s.count '\n'

theorem splitOnNl_cons (c : Char) (rest : List Char) :
    splitOnNl (c :: rest) =
      match splitOnNl rest with
      | [] => [ [] ]
      | p :: ps => if c = '\n' then [] :: p :: ps else (c :: p) :: ps := rfl

theorem splitOnNl_ne_nil (s : List Char) : splitOnNl s ≠ [] := by
  cases s with
  | nil => simp [splitOnNl]
  | cons c rest =>
    rw [splitOnNl_cons]
    cases hq : splitOnNl rest with
    | nil => simp
    | cons p ps =>
      simp only []
      split <;> simp

theorem countNl_pieces (s : List Char) : ∀ p ∈ splitOnNl s, countNl p = 0 := by
  induction s with
  | nil =>
    intro p hp
    simp [splitOnNl] at hp
    simp [hp, countNl]
  | cons c rest ih =>
    intro p hp
    rw [splitOnNl_cons] at hp
    cases hq : splitOnNl rest with
    | nil => exact absurd hq (splitOnNl_ne_nil rest)
    | cons q qs =>
      rw [hq] at hp
      simp only [] at hp
      by_cases hc : c = '\n'
      · rw [if_pos hc] at hp
        rcases List.mem_cons.mp hp with hp1 | hp2
        · simp [hp1, countNl]
        · exact ih p (hq ▸ hp2)
      · rw [if_neg hc] at hp
        rcases List.mem_cons.mp hp with hp1 | hp2
        · have hqmem : q ∈ splitOnNl rest := hq ▸ List.mem_cons_self q qs
          have hcount : countNl q = 0 := ih q hqmem
          subst hp1
          have hbeq : (c == '\n') = false := by simp [hc]
          simp [countNl, List.count_cons, hcount, hbeq] at hcount ⊢
          simp [hcount]
        · exact ih p (hq ▸ List.mem_cons_of_mem q hp2)

theorem length_splitOnNl (s : List Char) : (splitOnNl s).length = countNl s + 1 := by
  induction s with
  | nil => simp [splitOnNl, countNl]
  | cons c rest ih =>
    rw [splitOnNl_cons]
    cases hq : splitOnNl rest with
    | nil => exact absurd hq (splitOnNl_ne_nil rest)
    | cons q qs =>
      rw [hq] at ih
      simp only []
      by_cases hc : c = '\n'
      · rw [if_pos hc]
        have hbeq : (c == '\n') = true := by simp [hc]
        simp only [List.length_cons] at ih ⊢
        simp [countNl, List.count_cons, hbeq] at ih ⊢
        omega
      · rw [if_neg hc]
        have hbeq : (c == '\n') = false := by simp [hc]
        simp only [List.length_cons] at ih ⊢
        simp [countNl, List.count_cons, hbeq] at ih ⊢
        omega
theorem countNl_joinNl_take_two (ls : List (List Char))
    (h : ∀ p ∈ ls, countNl p = 0) : countNl (joinNl (ls.take 2)) ≤ 1 := by
  match ls with
  | [] => simp [joinNl, countNl]
  | [a] =>
    have := h a (by simp)
    simp [joinNl, this]
  | a :: b :: rest =>
    have ha := h a (by simp)
    have hb := h b (by simp)
    simp only [List.take, joinNl, countNl] at *
    simp [List.count_cons, ha, hb]

theorem countNl_stripChars_le (s : List Char) : countNl (stripChars s) ≤ countNl s := by
  unfold stripChars countNl
  calc ((s.dropWhile pyIsSpace).reverse.dropWhile pyIsSpace).reverse.count '\n'
      = ((s.dropWhile pyIsSpace).reverse.dropWhile pyIsSpace).count '\n' :=
        List.count_reverse '\n' _
    _ ≤ (s.dropWhile pyIsSpace).reverse.count '\n' :=
        (List.dropWhile_sublist pyIsSpace).count_le '\n'
    _ = (s.dropWhile pyIsSpace).count '\n' := List.count_reverse '\n' _
    _ ≤ s.count '\n' := (List.dropWhile_sublist pyIsSpace).count_le '\n'

theorem cap_then_strip_le (t3 : List Char) :
    countNl (stripChars (if 2 < (splitOnNl t3).length
      then joinNl ((splitOnNl t3).take 2) else t3)) ≤ 1 := by
  by_cases hlen : 2 < (splitOnNl t3).length
  · rw [if_pos hlen]
    exact le_trans (countNl_stripChars_le _)
      (countNl_joinNl_take_two (splitOnNl t3) (countNl_pieces t3))
  · rw [if_neg hlen]
    refine le_trans (countNl_stripChars_le _) ?_
    have := length_splitOnNl t3
    omega

theorem restore_subtitle_line_breaks_cap (text : List Char) :
    countNl (restore_subtitle_line_breaks text) ≤ 1 := by
  simp only [restore_subtitle_line_breaks]
  split
  · simp_all [countNl]
  · exact cap_then_strip_le _

/-- C7 counterexample: a parsed transcript entry whose raw text has three
lines and no markup keeps all three lines in `clean_text` — the claimed
2-line cap is not applied on the transcript parsing path (the cap exists
only in the editor-text line-break restoration). -/
theorem c7_clean_text_cap_counterexample :
    clean_text [ 'a', '\n', 'b', '\n', 'c' ] ≠
      capTwoLines (removeTags [ 'a', '\n', 'b', '\n', 'c' ]) := by decide

/-- C7 amended: for every parsed transcript entry, `clean_text` is the raw
text with every `<...>` markup span removed and nothing else — no line cap
is applied on the transcript path. The 2-line cap belongs to the
editor-sourced text pipeline: `_restore_subtitle_line_breaks` never outputs
more than one newline (at most 2 lines). -/
theorem c7_clean_text_semantics :
    (∀ raw : List Char, clean_text raw = removeTags raw) ∧
    clean_text (r"<i>hello</i> world".data) = r"hello world".data ∧
    (∀ text : List Char, countNl (restore_subtitle_line_breaks text) ≤ 1) :=
  ⟨fun _ => rfl, by decide, restore_subtitle_line_breaks_cap⟩

/-- A regex word character (`\w`, ASCII range): letter, digit or underscore. -/
def isWordChar (c : Char) : Bool := c.isAlphanum || c == '_'

/-- CPython `os.path.splitext(name)[0]` for a plain base name: split at the
rightmost dot, unless every character before it is itself a dot (so leading
dots never start an extension). -/
def splitextRoot (name : List Char) : List Char :=
  match name.reverse.findIdx? (fun c => c == '.') with
  | none => name
  | some i =>
      let keep := name.length - 1 - i
      if (name.take keep).all (fun c => c == '.') then name else name.take keep

/-- The transcript base name used by `map_subtitles_to_videos`: extension
stripped, and a residual `.mp4` suffix (from `foo.mp4.srt` names) stripped
as well. -/
def subtitle_name_of (fileName : List Char) : List Char :=
  let n := splitextRoot fileName
  if (r".mp4".data).isSuffixOf n then n.take (n.length - 4) else n

/-- The media base name used by `map_subtitles_to_videos`: extension
stripped. -/
def video_name_of (fileName : List Char) : List Char := splitextRoot fileName

/-- The scanner for Python `s.replace(pat, '')` with a non-empty pattern:
left-to-right, non-overlapping; the fuel argument starts at the input
length and bounds recursion so the definition stays structural (and thus
kernel-evaluable). -/
def removeAllSubGo (pat : List Char) : ℕ → List Char → List Char
  | _, [] => []
  | 0, s => s
  | fuel + 1, c :: rest =>
      if !pat.isEmpty && pat.isPrefixOf (c :: rest) then
        removeAllSubGo pat fuel ((c :: rest).drop pat.length)
      else c :: removeAllSubGo pat fuel rest

/-- Python `s.replace(pat, '')`. -/
def removeAllSub (pat s : List Char) : List Char := removeAllSubGo pat s.length s

/-- A finished `\w+` run is dropped when it is a standalone 1-2 digit
number (the `\b\d{1,2}\b` match of `_clean_filename`), kept otherwise. -/
def flushRun (run : List Char) : List Char :=
  if !run.isEmpty && run.length ≤ 2 && run.all Char.isDigit then [] else run

/-- The scanner for `re.sub(r'\b\d{1,2}\b', '', s)`: word-character runs
are accumulated and flushed at a non-word character or end of input;
`\b` boundaries exist exactly around maximal word runs, so a match is a
maximal run that is entirely 1-2 digits. -/
def stripSmallNumbersGo : List Char → List Char → List Char
  | run, [] => flushRun run
  | run, c :: rest =>
      if isWordChar c then stripSmallNumbersGo (run ++ [c]) rest
      else flushRun run ++ c :: stripSmallNumbersGo [] rest

/-- Python `re.sub(r'\b\d{1,2}\b', '', s)`. -/
def stripSmallNumbers (s : List Char) : List Char := stripSmallNumbersGo [] s

/-- Python `s.replace(a, b)` for single characters. -/
def replaceChar (a b : Char) (s : List Char) : List Char :=
  s.map (fun c => if c == a then b else c)

/-- The scanner for `re.sub(r'\s+', ' ', s)`: every maximal whitespace run
becomes a single space. -/
def collapseWsGo : Bool → List Char → List Char
  | _, [] => []
  | prevWs, c :: rest =>
      if pyIsSpace c then
        if prevWs then collapseWsGo true rest else ' ' :: collapseWsGo true rest
      else c :: collapseWsGo false rest

/-- Python `re.sub(r'\s+', ' ', s)`. -/
def collapseWhitespace (s : List Char) : List Char := collapseWsGo false s

/-- The source's `_clean_filename(filename)`: lowercase; `_`, `-`, `.`
replaced by spaces; the literal tokens `disc`, `season`, `title`,
`episode`, `s0`, `e0`, `x0` removed in that order; standalone 1-2 digit
numbers stripped; whitespace collapsed and stripped. -/
def clean_filename (filename : List Char) : List Char :=
  stripChars (collapseWhitespace (stripSmallNumbers
    ([ r"disc".data, r"season".data, r"title".data, r"episode".data,
       r"s0".data, r"e0".data, r"x0".data
     ].foldl (fun acc pat => removeAllSub pat acc)
      (replaceChar '.' ' ' (replaceChar '-' ' ' (replaceChar '_' ' ' (lowerStr filename)))))))

/-- The fuzzy test of `map_subtitles_to_videos`: cleaned names equal, or
either cleaned name contained in the other. -/
def fuzzy_names_match (cleanSubtitleName cleanVideoName : List Char) : Bool :=
  cleanSubtitleName == cleanVideoName ||
    containsSub cleanSubtitleName cleanVideoName ||
    containsSub cleanVideoName cleanSubtitleName

/-- The per-subtitle matching of `map_subtitles_to_videos`: an exact pass
over all video files (base-name equality) first, then a fuzzy pass over all
video files; the first match of a pass wins. -/
def match_video_for_subtitle (videoFiles : List (List Char)) (subtitleFile : List Char) :
    Option (List Char) :=
  let subtitleName := subtitle_name_of subtitleFile
  match videoFiles.find? (fun v => subtitleName == video_name_of v) with
  | some v => some v
  | none =>
      let cleanSubtitleName := clean_filename subtitleName
      videoFiles.find? (fun v =>
        fuzzy_names_match cleanSubtitleName (clean_filename (video_name_of v)))

/-- Python dict insertion `m[k] = v` on an association list (replace the
binding if the key exists, append otherwise). -/
def insertAssoc : List (List Char × List Char) → List Char → List Char →
    List (List Char × List Char)
  | [], k, v => [(k, v)]
  | (k1, v1) :: rest, k, v =>
      if k1 == k then (k, v) :: rest else (k1, v1) :: insertAssoc rest k v

/-- Python dict lookup `m.get(k)` on an association list. -/
def lookupAssoc (m : List (List Char × List Char)) (k : List Char) : Option (List Char) :=
  match m.find? (fun p => p.1 == k) with
  | some p => some p.2
  | none => none

/-- One iteration of the subtitle loop of `map_subtitles_to_videos`: the
shared map gains at most one binding, in place. -/
def map_subtitles_step (videoFiles : List (List Char))
    (m : List (List Char × List Char)) (subtitleFile : List Char) :
    List (List Char × List Char) :=
  match match_video_for_subtitle videoFiles subtitleFile with
  | some v => insertAssoc m subtitleFile v
  | none => m

/-- The complete map built by `map_subtitles_to_videos` from the walked
subtitle and video file lists (file names stand for the walked paths). -/
def map_subtitles_to_videos (subtitleFiles videoFiles : List (List Char)) :
    List (List Char × List Char) :=
  subtitleFiles.foldl (map_subtitles_step videoFiles) []

/-- The successive values of the shared `subtitle_to_video_map` while the
subtitle loop runs, starting from the map value `m`. -/
def map_rebuild_partials (videoFiles : List (List Char)) :
    List (List Char × List Char) → List (List Char) → List (List (List Char × List Char))
  | m, [] => [m]
  | m, sub :: rest =>
      m :: map_rebuild_partials videoFiles (map_subtitles_step videoFiles m sub) rest

/-- Every value of the shared `subtitle_to_video_map` a concurrent reader
can observe during a rebuild: the old map (before line 1045 clears it), the
cleared empty map, and each partially populated map after each in-place
insertion. -/
def map_rebuild_observable_states (oldMap : List (List Char × List Char))
    (subtitleFiles videoFiles : List (List Char)) : List (List (List Char × List Char)) :=
  oldMap :: map_rebuild_partials videoFiles [] subtitleFiles

example : splitextRoot (r"Show.S01E02.srt".data) = (r"Show.S01E02".data) := by decide
example : subtitle_name_of (r"foo.mp4.srt".data) = (r"foo".data) := by decide
example : clean_filename (r"Show.S01E02".data) = (r"show".data) := by decide
example : clean_filename (r"Show - 1x02 - Title".data) = (r"show".data) := by decide

theorem map_rebuild_partials_getLast (videoFiles : List (List Char))
    (subs : List (List Char)) : ∀ m,
    (map_rebuild_partials videoFiles m subs).getLast? =
      some (subs.foldl (map_subtitles_step videoFiles) m) := by
  induction subs with
  | nil => intro m; simp [map_rebuild_partials]
  | cons sub rest ih =>
    intro m
    have h := ih (map_subtitles_step videoFiles m sub)
    simp only [map_rebuild_partials, List.foldl_cons]
    cases hrest : map_rebuild_partials videoFiles (map_subtitles_step videoFiles m sub) rest with
    | nil => rw [hrest] at h; simp at h
    | cons x xs =>
      rw [hrest] at h
      rw [List.getLast?_cons_cons]
      exact h

/-- C5 counterexample: with the previous map equal to the rebuild result
for two exactly-matching subtitle/video pairs, the claim that every
observable state of the shared map during a rebuild is either the complete
old map or the complete new map is false: the rebuild first clears the map
in place, so a reader can observe the empty map, which is neither. -/
theorem c5_rebuild_not_atomic_counterexample :
    ¬(∀ st ∈ map_rebuild_observable_states
        (map_subtitles_to_videos [ r"a.srt".data, r"b.srt".data ]
          [ r"a.mp4".data, r"b.mp4".data ])
        [ r"a.srt".data, r"b.srt".data ] [ r"a.mp4".data, r"b.mp4".data ],
      st = map_subtitles_to_videos [ r"a.srt".data, r"b.srt".data ]
          [ r"a.mp4".data, r"b.mp4".data ] ∨
      st = map_subtitles_to_videos [ r"a.srt".data, r"b.srt".data ]
          [ r"a.mp4".data, r"b.mp4".data ]) := by decide

/-- C5 amended: the rebuild is not atomic for readers. A concurrent reader
of the shared map observes the old map before the rebuild starts, then the
cleared empty map, then each partially populated map after each in-place
insertion; only the final observable state is the complete new map. -/
theorem c5_rebuild_observable_states (oldMap : List (List Char × List Char))
    (subtitleFiles videoFiles : List (List Char)) :
    (map_rebuild_observable_states oldMap subtitleFiles videoFiles).head? = some oldMap ∧
    [] ∈ map_rebuild_observable_states oldMap subtitleFiles videoFiles ∧
    (map_rebuild_observable_states oldMap subtitleFiles videoFiles).getLast? =
      some (map_subtitles_to_videos subtitleFiles videoFiles) := by
  refine ⟨rfl, ?_, ?_⟩
  · cases subtitleFiles <;>
      simp [map_rebuild_observable_states, map_rebuild_partials]
  · have h := map_rebuild_partials_getLast videoFiles subtitleFiles []
    unfold map_rebuild_observable_states map_subtitles_to_videos
    cases hrest : map_rebuild_partials videoFiles [] subtitleFiles with
    | nil => rw [hrest] at h; simp at h
    | cons x xs =>
      rw [hrest] at h
      rw [List.getLast?_cons_cons]
      exact h

set_option maxHeartbeats 1000000 in
/-- C9: whenever the cleaned transcript and media names are equal or one is
a substring of the other, the fuzzy pass links the transcript to the media
file (stated for one transcript and one media file, where the first-match
rule is immaterial); in particular transcript `Show.S01E02.srt` is linked
to media `Show - 1x02 - Title.mp4`. -/
theorem c9_fuzzy_matching_links (subFile vidFile : List Char)
    (hfuzzy : fuzzy_names_match (clean_filename (subtitle_name_of subFile))
      (clean_filename (video_name_of vidFile)) = true) :
    lookupAssoc (map_subtitles_to_videos [subFile] [vidFile]) subFile = some vidFile ∧
    lookupAssoc (map_subtitles_to_videos [ r"Show.S01E02.srt".data ]
        [ r"Show - 1x02 - Title.mp4".data ]) (r"Show.S01E02.srt".data) =
      some (r"Show - 1x02 - Title.mp4".data) := by
  constructor
  · have hmatch : match_video_for_subtitle [vidFile] subFile = some vidFile := by
      unfold match_video_for_subtitle
      cases hex : (subtitle_name_of subFile == video_name_of vidFile) with
      | true => simp [List.find?_cons, hex]
      | false => simp [List.find?_cons, hex, hfuzzy]
    simp [map_subtitles_to_videos, map_subtitles_step, hmatch, insertAssoc,
      lookupAssoc, List.find?_cons]
  · decide

set_option maxHeartbeats 1000000 in
/-- C9 witness: the fuzzy link applied at the concrete example pair. -/
theorem c9_fuzzy_matching_links_witness :
    lookupAssoc (map_subtitles_to_videos [ r"Show.S01E02.srt".data ]
        [ r"Show - 1x02 - Title.mp4".data ]) (r"Show.S01E02.srt".data) =
      some (r"Show - 1x02 - Title.mp4".data) :=
  (c9_fuzzy_matching_links (r"Show.S01E02.srt".data)
    (r"Show - 1x02 - Title.mp4".data) (by decide)).1

/-- The shared state guarded by `cache_lock` that the build-trigger logic
reads and writes: the `is_caching` flag, plus two history counters used to
state the claims (`buildsInFlight` counts build threads between their
check-and-set and the `finally` that clears the flag; `buildsStarted`
counts fetches ever started against the editor client). -/
structure CacheFlagState where
  isCaching : Bool
  buildsInFlight : ℕ
  buildsStarted : ℕ
deriving DecidableEq, Repr

/-- The events of the build coordination: a trigger of
`_build_subtitle_cache_in_background` (carrying the resolved timeline
identifier, `none` when no valid timeline exists) and the completion of
`_update_subtitle_cache_thread` (its `finally` clears the flag). -/
inductive CacheBuildEvent where
  | triggerBuild (timelineId : Option (List Char))
  | finishBuild

/-- One event of `_build_subtitle_cache_in_background` /
`_update_subtitle_cache_thread`. The source holds `cache_lock` around the
check of `is_caching`, the timeline check, and the set of the flag (set
before the worker thread starts), and around the clear in the worker's
`finally`; each critical section is one atomic step here. A trigger while
`is_caching` is set returns with the state unchanged; a trigger with no
valid timeline returns without setting the flag. -/
def cache_build_step (st : CacheFlagState) : CacheBuildEvent → CacheFlagState
  | .triggerBuild timelineId =>
      if st.isCaching then st
      else
        match timelineId with
        | none => st
        | some _ =>
            { st with
              isCaching := true
              buildsInFlight := st.buildsInFlight + 1
              buildsStarted := st.buildsStarted + 1 }
  | .finishBuild =>
      match st.buildsInFlight with
      | 0 => st
      | n + 1 =>
          { st with
            isCaching := false
            buildsInFlight := n }

/-- The initial state: flag clear, no build ever started. -/
def initial_cache_state : CacheFlagState := ⟨false, 0, 0⟩

/-- The state after a sequence of trigger/finish events from process start. -/
def run_cache_events (events : List CacheBuildEvent) : CacheFlagState :=
  events.foldl cache_build_step initial_cache_state

theorem cache_invariant_step (st : CacheFlagState) (e : CacheBuildEvent)
    (h : st.buildsInFlight = if st.isCaching then 1 else 0) :
    (cache_build_step st e).buildsInFlight =
      if (cache_build_step st e).isCaching then 1 else 0 := by
  cases e with
  | triggerBuild timelineId =>
    unfold cache_build_step
    by_cases hc : st.isCaching
    · simpa [hc] using h
    · cases timelineId with
      | none => simpa [hc] using h
      | some tl =>
        simp [hc] at h
        simp [hc, h]
  | finishBuild =>
    unfold cache_build_step
    cases hf : st.buildsInFlight with
    | zero => simp only [hf]; rw [hf] at h; exact h
    | succ n =>
      rw [hf] at h
      by_cases hc : st.isCaching
      · simp [hc] at h
        simp
        omega
      · simp [hc] at h

theorem cache_invariant (events : List CacheBuildEvent) :
    (run_cache_events events).buildsInFlight =
      if (run_cache_events events).isCaching then 1 else 0 := by
  unfold run_cache_events
  have haux : ∀ (evs : List CacheBuildEvent) (st : CacheFlagState),
      st.buildsInFlight = (if st.isCaching then 1 else 0) →
      (evs.foldl cache_build_step st).buildsInFlight =
        if (evs.foldl cache_build_step st).isCaching then 1 else 0 := by
    intro evs
    induction evs with
    | nil => intro st h; exact h
    | cons e rest ih =>
      intro st h
      exact ih _ (cache_invariant_step st e h)
  exact haux events initial_cache_state rfl

/-- C3: in every reachable state of the build coordination at most one
background cache build is in flight, and a further trigger while the
mutex-guarded `is_caching` flag is set is a no-op: it leaves the whole
state unchanged, in particular it starts no second fetch against the
editor client. -/
theorem c3_single_build_in_flight (events : List CacheBuildEvent) :
    (run_cache_events events).buildsInFlight ≤ 1 ∧
    (∀ timelineId, (run_cache_events events).isCaching = true →
      cache_build_step (run_cache_events events) (.triggerBuild timelineId) =
        run_cache_events events) := by
  constructor
  · have h := cache_invariant events
    split at h <;> omega
  · intro timelineId hc
    unfold cache_build_step
    simp [hc]

/-- C3 witness: after one successful trigger the flag is set; a second
trigger leaves the state unchanged. -/
theorem c3_single_build_in_flight_witness :
    (run_cache_events [ .triggerBuild (some (r"proj::tl".data)) ]).buildsInFlight ≤ 1 ∧
    cache_build_step (run_cache_events [ .triggerBuild (some (r"proj::tl".data)) ])
        (.triggerBuild (some (r"proj::tl".data))) =
      run_cache_events [ .triggerBuild (some (r"proj::tl".data)) ] :=
  ⟨(c3_single_build_in_flight [ .triggerBuild (some (r"proj::tl".data)) ]).1,
   (c3_single_build_in_flight [ .triggerBuild (some (r"proj::tl".data)) ]).2
     (some (r"proj::tl".data)) (by decide)⟩

/-- The state read and written by the cached-search path of
`_find_text_in_resolve`, `_update_subtitle_cache_thread` and
`_check_search_queue`: the `is_caching` flag, the cache entry for the
current timeline (`none` when absent), the single-slot queued keyword, and
a counter of fetches started against the editor client. -/
structure EditorSearchState where
  isCaching : Bool
  cachedItems : Option (List CachedItem)
  queuedSearchTerm : Option (List Char)
  buildsStarted : ℕ
deriving DecidableEq, Repr

/-- The source's `_find_text_in_resolve(text_to_find)` on the cached-search
path: with a (non-empty) cache entry, search it and return the matches;
otherwise queue the keyword, and when no build is in flight start one
(`_start_async_cache_build` → `_build_subtitle_cache_in_background`, which
sets `is_caching` under the lock before its worker runs). -/
def find_text_in_resolve (textToFind : List Char) (st : EditorSearchState) :
    EditorSearchState × List CachedItem :=
  let hasCache := match st.cachedItems with
    | some items => !items.isEmpty
    | none => false
  if hasCache then
    (st, search_subtitle_items (st.cachedItems.getD []) textToFind false)
  else
    let st1 := { st with queuedSearchTerm := some textToFind }
    if st1.isCaching then (st1, [])
    else
      ({ st1 with
         isCaching := true
         buildsStarted := st1.buildsStarted + 1 }, [])

/-- The completion of `_update_subtitle_cache_thread`: a successful fetch
of a non-empty item list replaces the cache entry wholesale; a failed or
empty fetch leaves the cache absent and only surfaces a status message; the
`finally` clears `is_caching` in every case. -/
def update_subtitle_cache_result (fetched : Option (List CachedItem))
    (st : EditorSearchState) : EditorSearchState :=
  match fetched with
  | some items =>
      if !items.isEmpty then
        { st with
          cachedItems := some items
          isCaching := false }
      else { st with isCaching := false }
  | none => { st with isCaching := false }

/-- The source's `_check_search_queue`: when no build is in flight and a
keyword is queued, clear the slot and re-execute `_find_text_in_resolve`
with it; while a build is in flight the monitor keeps polling (state
unchanged here); otherwise nothing happens. -/
def check_search_queue (st : EditorSearchState) : EditorSearchState :=
  match st.queuedSearchTerm with
  | some term =>
      if !st.isCaching then
        (find_text_in_resolve term { st with queuedSearchTerm := none }).1
      else st
  | none => st

/-- C4 counterexample: start with no cache, search for a keyword (it is
queued and a first build starts), let the build resolve to Empty (failed
fetch), and run the queue monitor. The claim says the queued search is
dropped and triggers no new build; instead the monitor re-executes the
search, which re-queues the same keyword and starts a second build — a
silent retry. -/
theorem c4_failed_build_retries_counterexample :
    (check_search_queue (update_subtitle_cache_result none
        (find_text_in_resolve (r"foo".data)
          ⟨false, none, none, 0⟩).1)).queuedSearchTerm = some (r"foo".data) ∧
    (check_search_queue (update_subtitle_cache_result none
        (find_text_in_resolve (r"foo".data)
          ⟨false, none, none, 0⟩).1)).buildsStarted = 2 ∧
    (check_search_queue (update_subtitle_cache_result none
        (find_text_in_resolve (r"foo".data)
          ⟨false, none, none, 0⟩).1)).isCaching = true ∧
    ¬((check_search_queue (update_subtitle_cache_result none
          (find_text_in_resolve (r"foo".data)
            ⟨false, none, none, 0⟩).1)).queuedSearchTerm = none ∧
      (check_search_queue (update_subtitle_cache_result none
          (find_text_in_resolve (r"foo".data)
            ⟨false, none, none, 0⟩).1)).buildsStarted =
        (update_subtitle_cache_result none
          (find_text_in_resolve (r"foo".data)
            ⟨false, none, none, 0⟩).1).buildsStarted) := by
  refine ⟨rfl, rfl, rfl, ?_⟩
  intro h
  exact absurd h.1 (by decide)

/-- C4 amended: when a build resolves to Empty (failed or empty fetch)
while a keyword is queued, the queue monitor does not drop the queued
search: it re-executes it, which finds no cache, re-queues the same
keyword, and starts a new build — one further fetch against the editor
client per cycle (a polling retry loop; the failed build itself surfaces
only a status message). -/
theorem c4_failed_build_retries_queued_search (st : EditorSearchState)
    (term : List Char) (hcache : st.cachedItems = none)
    (hqueue : st.queuedSearchTerm = some term) :
    (check_search_queue (update_subtitle_cache_result none st)).queuedSearchTerm =
      some term ∧
    (check_search_queue (update_subtitle_cache_result none st)).buildsStarted =
      st.buildsStarted + 1 ∧
    (check_search_queue (update_subtitle_cache_result none st)).isCaching = true := by
  obtain ⟨ic, ci, qt, bs⟩ := st
  simp only at hcache hqueue
  subst hcache
  subst hqueue
  exact ⟨rfl, rfl, rfl⟩

/-- C4 amended witness: a state with a build in flight, no cache and a
queued keyword, whose build then fails. -/
theorem c4_failed_build_retries_queued_search_witness :
    (check_search_queue (update_subtitle_cache_result none
        ⟨true, none, some (r"foo".data), 1⟩)).queuedSearchTerm = some (r"foo".data) ∧
    (check_search_queue (update_subtitle_cache_result none
        ⟨true, none, some (r"foo".data), 1⟩)).buildsStarted = 2 ∧
    (check_search_queue (update_subtitle_cache_result none
        ⟨true, none, some (r"foo".data), 1⟩)).isCaching = true :=
  c4_failed_build_retries_queued_search ⟨true, none, some (r"foo".data), 1⟩
    (r"foo".data) rfl rfl
